import Mathlib

/-!
# Sliver server control plane: handlers and listener jobs

A shallow embedding of

* `server/handlers/slivers.go` (`registerSliverHandler`, `tunnelDataHandler`,
  `tunnelCloseHandler`),
* `server/rpc/rpc-jobs.go` (`rpcJobs`, `rpcJobKill`, the listener starters),
* `server/rpc/rpc-shell.go` (`rpcShell`).

Conventions of the embedding.

* Go pointers that may be `nil` are `Option`s; reading a field through a `nil`
  pointer is the run-time panic `Fault.nilDeref`, so every function that can
  panic returns `Except Fault _`.
* The process-wide singletons (`core.Jobs`, `core.Tunnels`, `core.Hive`,
  `core.EventBroker`) are fields of an explicit state record that is passed in
  and returned.
* Sending on a client's `Send` channel appends to the send log `Sent`.
* Logger calls do not change the modelled state; only the field reads made
  while building their arguments are kept (they can panic).
* `proto.Unmarshal` / `proto.Marshal` belong to an external library: decoders
  are parameters and a response carries the typed message that is marshalled.
-/

namespace SliverServer

/-- Opaque payload bytes. -/
abbrev Bytes := List Nat

/-- Run-time panics of the Go program. -/
inductive Fault where
  | nilDeref
  deriving DecidableEq, Repr

/-- Modelled from the spec: the `core.Sliver` record is declared outside src/; a
connected agent (session) with the fields the handlers assign. -/
structure Sliver where
  ID : Nat
  Name : String
  Hostname : String
  Username : String
  UID : String
  GID : String
  Os : String
  Arch : String
  PID : Int
  Filename : String
  deriving DecidableEq, Repr

/-- Modelled from the spec: the `sliverpb.Register` message is declared outside
src/; the nine identity fields the handler reads. -/
structure Register where
  Name : String
  Hostname : String
  Username : String
  Uid : String
  Gid : String
  Os : String
  Arch : String
  Pid : Int
  Filename : String
  deriving DecidableEq, Repr

/-- Modelled from the spec: the `sliverpb.TunnelData` message is declared outside
src/; the handler reads its tunnel id. -/
structure TunnelData where
  TunnelID : Nat
  Data : Bytes
  deriving DecidableEq, Repr

/-- Modelled from the spec: the `sliverpb.TunnelClose` message is declared
outside src/; tunnel id and close reason. -/
structure TunnelClose where
  TunnelID : Nat
  Err : String
  deriving DecidableEq, Repr

/-- Envelope type tags used by the handlers (`sliverpb.Msg*`). -/
inductive MsgType where
  | MsgRegister
  | MsgTunnelData
  | MsgTunnelClose
  | MsgShellReq
  deriving DecidableEq, Repr

/-- Modelled from the spec: the `sliverpb.Envelope` wire unit is declared outside
src/; a type tag and an opaque payload. -/
structure Envelope where
  Type_ : MsgType
  Data : Bytes
  deriving DecidableEq, Repr

/-- Modelled from the spec: the `core.Tunnel` record is declared outside src/;
`Sliver` is the owning session, `Client` names the operator client connection
whose `Send` channel receives the frames. Both references are set when the
tunnel is created. -/
structure Tunnel where
  ID : Nat
  Sliver : Sliver
  Client : Nat
  deriving DecidableEq, Repr

/-- Modelled from the spec: the `core.Job` record is declared outside src/; the
`JobCtrl` channel is identified with the job. -/
structure Job where
  ID : Int
  Name : String
  Description : String
  Protocol : String
  Port : Nat
  deriving DecidableEq, Repr

/-- Modelled from the spec: the event kinds `consts.ConnectedEvent` and
`consts.StoppedEvent` are constants declared outside src/. -/
inductive EventType where
  | ConnectedEvent
  | StoppedEvent
  deriving DecidableEq, Repr

/-- Modelled from the spec: the `core.Event` record is declared outside src/;
unset fields are `none`. -/
structure Event where
  EventType : EventType
  Job : Option Job
  Sliver : Option Sliver
  Err : Option String
  deriving DecidableEq, Repr

/-- State read and written by the session-traffic handlers. -/
structure World where
  Tunnels : List Tunnel
  Sent : List (Nat × Envelope)
  Events : List Event
  Closed : List (Nat × String)
  deriving DecidableEq, Repr

/-- Modelled from the spec: `core.Tunnels.Tunnel(id)` is not under src/; it
"returns an optional tunnel", the one registered under `id`. -/
def lookupTunnel (ts : List Tunnel) (id : Nat) : Option Tunnel :=
  ts.find? (fun t => t.ID == id)

/-- Modelled from the spec: `core.Tunnels.CloseTunnel(id, reason)` is not under
src/; it "removes the tunnel". The call itself is recorded in `Closed`. -/
def CloseTunnel (w : World) (id : Nat) (reason : String) : World :=
  { w with Tunnels := w.Tunnels.filter (fun t => !(t.ID == id)),
           Closed := w.Closed ++ [(id, reason)] }

/-- Modelled from the spec: `core.EventBroker.Publish` is not under src/; the
broker distributes the event to its subscribers, recorded here as an append to
the event log. -/
def Publish (w : World) (e : Event) : World :=
  { w with Events := w.Events ++ [e] }

/-- The nine assignments of `registerSliverHandler`. -/
def applyRegister (s : Sliver) (r : Register) : Sliver :=
  { s with Name := r.Name, Hostname := r.Hostname, Username := r.Username,
           UID := r.Uid, GID := r.Gid, Os := r.Os, Arch := r.Arch,
           PID := r.Pid, Filename := r.Filename }

/-- The handler `registerSliverHandler`: on a decode error nothing happens;
otherwise the fields are assigned and, when the name was empty on entry, the
deferred publication of the Connected event runs on return, carrying the
session as it is then. -/
def registerSliverHandler (unmarshal : Bytes → Except String Register)
    (w : World) (sliver : Sliver) (data : Bytes) : World × Sliver :=
  match unmarshal data with
  | .error _ => (w, sliver)
  | .ok register =>
    let first := sliver.Name == ""
    let sliver1 := applyRegister sliver register
    if first then
      (Publish w { EventType := .ConnectedEvent, Job := none,
                   Sliver := some sliver1, Err := none }, sliver1)
    else (w, sliver1)

/-- The handler `tunnelDataHandler`; the decode error is ignored by the source,
so `unmarshal` gives the message as `proto.Unmarshal` left it. -/
def tunnelDataHandler (unmarshal : Bytes → TunnelData)
    (w : World) (sliver : Sliver) (data : Bytes) : World :=
  let tunnelData := unmarshal data
  match lookupTunnel w.Tunnels tunnelData.TunnelID with
  | some tunnel =>
    if sliver.ID == tunnel.Sliver.ID then
      { w with Sent := w.Sent ++ [(tunnel.Client,
          { Type_ := .MsgTunnelData, Data := data })] }
    else w
  | none => w

/-- The handler `tunnelCloseHandler`: `tunnel.Sliver.ID` is read before any
nil check, so an absent tunnel panics. -/
def tunnelCloseHandler (unmarshal : Bytes → TunnelClose)
    (w : World) (sliver : Sliver) (data : Bytes) : Except Fault World :=
  let tunnelClose := unmarshal data
  match lookupTunnel w.Tunnels tunnelClose.TunnelID with
  | none => .error .nilDeref
  | some tunnel =>
    if tunnel.Sliver.ID == sliver.ID then
      .ok (CloseTunnel w tunnel.ID tunnelClose.Err)
    else .ok w

/-- Handle a sequence of Register messages for one session, in order. -/
def registerAll (unmarshal : Bytes → Except String Register)
    (w : World) (sliver : Sliver) : List Bytes → World × Sliver
  | [] => (w, sliver)
  | d :: ds =>
    let r := registerSliverHandler unmarshal w sliver d
    registerAll unmarshal r.1 r.2 ds

/-! ## Operator RPC handlers (`rpc-jobs.go`, `rpc-shell.go`) -/

/-- Goroutines launched by the listener starters, named by the statement they
begin with. -/
inductive Goroutine where
  | mtlsWaiter (job : Job)
  | dnsWaiter (job : Job)
  | dnsServe (job : Job)
  | httpServe (job : Job)
  | httpWaiter (job : Job)
  deriving DecidableEq, Repr

/-- State read and written by the operator RPC handlers. `Signals` logs the
sends on `JobCtrl` channels (by job), `Spawned` the goroutines launched,
`Requests` the envelopes forwarded to sessions (by session id). -/
structure Core where
  NextJobID : Int
  Jobs : List Job
  Events : List Event
  Signals : List Job
  Spawned : List Goroutine
  Slivers : List Sliver
  Tunnels : List Tunnel
  Requests : List (Nat × Envelope)
  deriving DecidableEq, Repr

/-- Request and response messages of `clientpb` / `sliverpb` used here. -/
structure JobKillReq where
  ID : Int
  deriving DecidableEq, Repr

/-- The `clientpb.JobKill` response. -/
structure JobKill where
  ID : Int
  Success : Bool
  Err : String
  deriving DecidableEq, Repr

/-- The `clientpb.MTLSReq` request. -/
structure MTLSReq where
  Server : String
  LPort : Int
  deriving DecidableEq, Repr

/-- The `clientpb.DNSReq` request. -/
structure DNSReq where
  Domain : String
  deriving DecidableEq, Repr

/-- The `sliverpb.ShellReq` message. -/
structure ShellReq where
  SliverID : Nat
  EnablePTY : Bool
  TunnelID : Nat
  deriving DecidableEq, Repr

/-- One entry of the `clientpb.Jobs` listing. -/
structure JobInfo where
  ID : Int
  Name : String
  Description : String
  Protocol : String
  Port : Int
  deriving DecidableEq, Repr

/-- Typed messages handed to `proto.Marshal`. -/
inductive Msg where
  | Jobs (Active : List JobInfo)
  | JobKill (m : JobKill)
  | MTLS (JobID : Int)
  | DNS (JobID : Int)
  | HTTP (JobID : Int)
  | ShellReq (EnablePTY : Bool) (TunnelID : Nat)
  deriving DecidableEq, Repr

/-- What the `RPCResponse` callback receives: `resp(data, err)`. -/
structure Response where
  data : Bytes
  err : Option String
  deriving DecidableEq, Repr

/-- Conversion `int32(x)` of a Go `int`: wrap into the signed 32-bit range. -/
def toInt32 (x : Int) : Int := (x + 2147483648) % 4294967296 - 2147483648

/-- Conversion `uint16(x)`: keep the low 16 bits. -/
def toUint16 (x : Int) : Nat := (x % 65536).toNat

/-- Read through a pointer: `nil` panics. -/
def deref {α : Type} : Option α → Except Fault α
  | some a => .ok a
  | none => .error .nilDeref

/-- Modelled from the spec: `core.Jobs.Job(id)` is not under src/; it "returns
the job or a not-found result" (a nil pointer). -/
def lookupJob (js : List Job) (id : Int) : Option Job :=
  js.find? (fun j => j.ID == id)

/-- Modelled from the spec: `core.Hive.Sliver(id)` is not under src/; the
session registered under `id`, nil when there is none. -/
def lookupSliver (ss : List Sliver) (id : Nat) : Option Sliver :=
  ss.find? (fun s => s.ID == id)

/-- Modelled from the spec: `core.GetJobID()` is not under src/; it "returns a
fresh, process-lifetime-unique, monotonically increasing integer". -/
def GetJobID (c : Core) : Int × Core :=
  (c.NextJobID, { c with NextJobID := c.NextJobID + 1 })

/-- Modelled from the spec: `core.Jobs.AddJob` is not under src/; it adds the job
to the registry. -/
def AddJob (js : List Job) (job : Job) : List Job := js ++ [job]

/-- Modelled from the spec: `core.Jobs.RemoveJob` is not under src/; it removes
the job, and "removing an absent job is a no-op". -/
def RemoveJob (js : List Job) (job : Job) : List Job :=
  js.filter (fun j => !(j.ID == job.ID))

/-- The Stopped event published by a teardown. -/
def stoppedEvent (job : Job) (err : Option String) : Event :=
  { EventType := .StoppedEvent, Job := some job, Sliver := none, Err := err }

/-- The loop of `rpcJobs`: one listing entry per job of `core.Jobs.Active`. -/
def activeJobs (c : Core) : List JobInfo :=
  c.Jobs.map (fun job =>
    ({ ID := toInt32 job.ID, Name := job.Name, Description := job.Description,
       Protocol := job.Protocol, Port := toInt32 job.Port } : JobInfo))

/-- The handler `rpcJobs`. -/
def rpcJobs (marshal : Msg → Bytes × Option String) (c : Core) : Response :=
  let jobs := activeJobs c
  match marshal (.Jobs jobs) with
  | (_, some err) => { data := [], err := some err }
  | (data, none) => { data := data, err := none }

/-- The handler `rpcJobKill`: the response record is built from `job.ID` before
the nil check, so the lookup result is dereferenced first. -/
def rpcJobKill (unmarshal : Bytes → Except String JobKillReq)
    (marshal : Msg → Bytes × Option String)
    (c : Core) (data : Bytes) : Except Fault (Core × Response) :=
  match unmarshal data with
  | .error err => .ok (c, { data := [], err := some err })
  | .ok jobKillReq => do
    let job := lookupJob c.Jobs jobKillReq.ID
    let jobID ← (deref job).map (fun j => j.ID)
    let jobKill : JobKill := { ID := toInt32 jobID, Success := false, Err := "" }
    let (c1, jobKill1) :=
      match job with
      | some j => ({ c with Signals := c.Signals ++ [j] },
                   { jobKill with Success := true })
      | none => (c, { jobKill with Success := false, Err := "Invalid Job ID" })
    let (data1, err1) := marshal (.JobKill jobKill1)
    pure (c1, { data := data1, err := err1 })

/-- The starter `jobStartMTLSListener`; `bind` stands for
`c2.StartMutualTLSListener`, which gives a listener handle or an error. The
result is the pair the Go function returns. -/
def jobStartMTLSListener (bind : String → Nat → Except String Nat)
    (c : Core) (bindIface : String) (port : Nat) : Core × Int × Option String :=
  match bind bindIface port with
  | .error err => (c, -1, some err)
  | .ok _ln =>
    let (id, c1) := GetJobID c
    let job : Job := { ID := id, Name := "mTLS", Description := "mutual tls",
                       Protocol := "tcp", Port := port }
    let c2 := { c1 with Spawned := c1.Spawned ++ [Goroutine.mtlsWaiter job] }
    let c3 := { c2 with Jobs := AddJob c2.Jobs job }
    (c3, job.ID, none)

/-- The handler `rpcStartMTLSListener`. -/
def rpcStartMTLSListener (unmarshal : Bytes → Except String MTLSReq)
    (marshal : Msg → Bytes × Option String)
    (bind : String → Nat → Except String Nat)
    (c : Core) (data : Bytes) : Core × Response :=
  match unmarshal data with
  | .error err => (c, { data := [], err := some err })
  | .ok mtlsReq =>
    match jobStartMTLSListener bind c mtlsReq.Server (toUint16 mtlsReq.LPort) with
    | (c1, _, some err) => (c1, { data := [], err := some err })
    | (c1, jobID, none) =>
      let (data1, err1) := marshal (.MTLS (toInt32 jobID))
      (c1, { data := data1, err := err1 })

/-- The starter `jobStartDNSListener`. `provision` stands for
`certs.GetServerRSACertificatePEM`, whose results the source discards;
`c2.StartDNSListener` returns a server handle and no error, and binding
happens later inside `ListenAndServe` in the `dnsServe` goroutine. -/
def jobStartDNSListener (provision : String → Except String Unit)
    (c : Core) (domain : String) : Core × Int × Option String :=
  let _ := provision domain
  let (id, c1) := GetJobID c
  let job : Job := { ID := id, Name := "dns", Description := domain,
                     Protocol := "udp", Port := 53 }
  let c2 := { c1 with Spawned := c1.Spawned ++ [Goroutine.dnsWaiter job] }
  let c3 := { c2 with Jobs := AddJob c2.Jobs job }
  let c4 := { c3 with Spawned := c3.Spawned ++ [Goroutine.dnsServe job] }
  (c4, job.ID, none)

/-- The handler `rpcStartDNSListener`. -/
def rpcStartDNSListener (unmarshal : Bytes → Except String DNSReq)
    (marshal : Msg → Bytes × Option String)
    (provision : String → Except String Unit)
    (c : Core) (data : Bytes) : Core × Response :=
  match unmarshal data with
  | .error err => (c, { data := [], err := some err })
  | .ok dnsReq =>
    match jobStartDNSListener provision c dnsReq.Domain with
    | (c1, _, some err) => (c1, { data := [], err := some err })
    | (c1, jobID, none) =>
      let (data1, err1) := marshal (.DNS (toInt32 jobID))
      (c1, { data := data1, err := err1 })

/-- The `c2.HTTPServerConfig` record. -/
structure HTTPServerConfig where
  Addr : String
  LPort : Nat
  Secure : Bool
  Domain : String
  Cert : Bytes
  Key : Bytes
  ACME : Bool
  deriving DecidableEq, Repr

/-- The starter `jobStartHTTPListener`: the job is registered, then the serve
goroutine and the waiter are launched. -/
def jobStartHTTPListener (c : Core) (conf : HTTPServerConfig) : Core × Job :=
  let name := if conf.Secure then "https" else "http"
  let (id, c1) := GetJobID c
  let job : Job := { ID := id, Name := name,
                     Description := name ++ " for domain " ++ conf.Domain,
                     Protocol := "tcp", Port := conf.LPort }
  let c2 := { c1 with Jobs := AddJob c1.Jobs job }
  let c3 := { c2 with Spawned := c2.Spawned ++ [Goroutine.httpServe job] }
  let c4 := { c3 with Spawned := c3.Spawned ++ [Goroutine.httpWaiter job] }
  (c4, job)

/-- The handler `rpcShell`. `request` stands for `sliver.Request`: the session's
raw reply, or a timeout error. The decode error is ignored by the source. -/
def rpcShell (unmarshal : Bytes → ShellReq)
    (marshal : Msg → Bytes × Option String)
    (request : Sliver → Envelope → Bytes × Option String)
    (c : Core) (req : Bytes) : Except Fault (Core × Response) := do
  let shellReq := unmarshal req
  let sliver := lookupSliver c.Slivers shellReq.SliverID
  let tunnel := lookupTunnel c.Tunnels shellReq.TunnelID
  let tunnelID ← (deref tunnel).map (fun t => t.ID)
  match marshal (.ShellReq shellReq.EnablePTY tunnelID) with
  | (_, some err) => pure (c, { data := [], err := some err })
  | (startShellReq, none) =>
    let s ← deref sliver
    let env : Envelope := { Type_ := .MsgShellReq, Data := startShellReq }
    let (data, err) := request s env
    pure ({ c with Requests := c.Requests ++ [(s.ID, env)] },
          { data := data, err := err })

/-! ## Job lifecycle: the goroutines of one listener job

After a starter returns, the job's goroutines run concurrently with the
operator's kill requests. One job's lifecycle is a labelled transition system:
a label is either an event of the environment (a kill request arrives, the
serve loop returns) or one statement of one goroutine. Channel operations on
the unbuffered `JobCtrl` are rendezvous steps between a blocked sender and the
blocked receiver. -/

/-- The three listener starters. -/
inductive Kind where
  | mtls
  | dns
  | http
  deriving DecidableEq, Repr

/-- State of the `sync.Once` that guards the HTTP cleanup. -/
inductive OnceState where
  | fresh
  | running
  | done
  deriving DecidableEq, Repr

/-- Program points of a job's goroutines. `err` is the argument of the teardown
the goroutine is running (`cleanup(err)`; the mutual-TLS and DNS teardowns set
no error). -/
inductive PC where
  | recv
  | once (err : Option String)
  | release (err : Option String)
  | remove (err : Option String)
  | publish (err : Option String)
  | serving
  | send
  | finished
  deriving DecidableEq, Repr

/-- One job's lifecycle state. `waiter` is the goroutine that starts with
`<-job.JobCtrl`, `serve` the one around the serve loop (for mutual-TLS the
accept loop inside `c2.StartMutualTLSListener`, which the starter does not
observe). `killers` counts `rpcJobKill` calls blocked at `job.JobCtrl <- true`.
`Stops`, `Removes` and `Teardowns` log the calls of the driver's stop, of
`RemoveJob(job)`, and the entries into the teardown body with their error
argument; `kills` and `failure` record the triggers seen so far. -/
structure Life where
  kind : Kind
  job : Job
  Jobs : List Job
  Events : List Event
  once : OnceState
  waiter : PC
  serve : PC
  killers : Nat
  kills : Nat
  failure : Option String
  Stops : Nat
  Removes : Nat
  Teardowns : List (Option String)
  deriving DecidableEq, Repr

/-- Labels of the lifecycle transitions. -/
inductive Label where
  | kill
  | serveErr (e : String)
  | serveNil
  | rendezvousKill
  | rendezvousServe
  | waiterStep
  | serveStep
  deriving DecidableEq, Repr

/-- The lifecycle state a starter leaves behind: registry and event log as the
starter left them, the waiter blocked on `JobCtrl`, the serve loop running. -/
def lifeOf (kind : Kind) (c : Core) (job : Job) : Life :=
  { kind := kind, job := job, Jobs := c.Jobs, Events := c.Events,
    once := .fresh, waiter := .recv, serve := .serving, killers := 0,
    kills := 0, failure := none, Stops := 0, Removes := 0, Teardowns := [] }

/-- The next statement of a goroutine standing at `pc` inside `once.Do` or the
teardown body; `after` is where that goroutine continues afterwards. A second
caller of `once.Do` blocks while the first is still running the body. -/
def Life.stmt (s : Life) (pc : PC) (after : PC) : Option (Life × PC) :=
  match pc with
  | .once err =>
    match s.once with
    | .fresh => some ({ s with once := .running,
                               Teardowns := s.Teardowns ++ [err] }, .release err)
    | .running => none
    | .done => some (s, after)
  | .release err => some ({ s with Stops := s.Stops + 1 }, .remove err)
  | .remove err =>
    some ({ s with Jobs := RemoveJob s.Jobs s.job, Removes := s.Removes + 1 },
          .publish err)
  | .publish err =>
    some ({ s with Events := s.Events ++ [stoppedEvent s.job err],
                   once := if s.kind = .http then .done else s.once }, after)
  | _ => none

/-- The waiter receives from `JobCtrl`: the HTTP waiter goes on to
`once.Do(cleanup(nil))`, the other two enter their teardown directly. -/
def Life.received (s : Life) : Life :=
  match s.kind with
  | .http => { s with waiter := .once none }
  | _ => { s with waiter := .release none, Teardowns := s.Teardowns ++ [none] }

/-- One transition. `kill` is an `rpcJobKill` whose lookup finds this job and
which then blocks on the send (a request for an absent id never reaches the
channel, see `rpcJobKill`). `serveErr` and `serveNil` are the serve loop returning: the DNS
goroutine then sends on `JobCtrl`, the HTTP goroutine calls
`once.Do(cleanup(err))` and sends afterwards, and nothing in
`jobStartMTLSListener` reacts. -/
def step (l : Label) (s : Life) : Option Life :=
  match l with
  | .kill =>
    if lookupJob s.Jobs s.job.ID = some s.job then
      some { s with killers := s.killers + 1, kills := s.kills + 1 }
    else none
  | .serveErr e =>
    if s.serve = .serving then
      match s.kind with
      | .mtls => some { s with serve := .finished, failure := some e }
      | .dns => some { s with serve := .send, failure := some e }
      | .http => some { s with serve := .once (some e), failure := some e }
    else none
  | .serveNil =>
    if s.serve = .serving then some { s with serve := .finished } else none
  | .rendezvousKill =>
    if s.waiter = .recv ∧ 0 < s.killers then
      some { s.received with killers := s.killers - 1 }
    else none
  | .rendezvousServe =>
    if s.waiter = .recv ∧ s.serve = .send then
      some { s.received with serve := .finished }
    else none
  | .waiterStep =>
    (s.stmt s.waiter .finished).map (fun r => { r.1 with waiter := r.2 })
  | .serveStep =>
    (s.stmt s.serve .send).map (fun r => { r.1 with serve := r.2 })

/-- Run a sequence of transitions; `none` when one of them is not enabled. -/
def run : List Label → Life → Option Life
  | [], s => some s
  | l :: ls, s => (step l s).bind (run ls)

/-- No goroutine of the job can take a step: nothing is left to schedule. -/
def quiescent (s : Life) : Bool :=
  (step .waiterStep s).isNone && (step .serveStep s).isNone &&
  (step .rendezvousKill s).isNone && (step .rendezvousServe s).isNone

/-- A teardown trigger has occurred: a kill raised the control signal, or the
serve loop of a starter that watches it failed. -/
def triggered (s : Life) : Bool :=
  decide (0 < s.kills) || (s.failure.isSome && s.kind != Kind.mtls)

/-- Number of Stopped events for a job in an event log. -/
def stoppedCount (job : Job) (evs : List Event) : Nat :=
  (evs.filter (fun e => e.EventType == EventType.StoppedEvent &&
                        e.Job == some job)).length

/-- The lifecycle states the three starters hand over, with the registry they
started from. -/
inductive Started : Core → Life → Prop where
  | mtls (bind : String → Nat → Except String Nat) (c : Core) (bindIface : String)
      (port : Nat) (ln : Nat) (h : bind bindIface port = .ok ln) :
      Started c (lifeOf .mtls (jobStartMTLSListener bind c bindIface port).1
        { ID := c.NextJobID, Name := "mTLS", Description := "mutual tls",
          Protocol := "tcp", Port := port })
  | dns (provision : String → Except String Unit) (c : Core) (domain : String) :
      Started c (lifeOf .dns (jobStartDNSListener provision c domain).1
        { ID := c.NextJobID, Name := "dns", Description := domain,
          Protocol := "udp", Port := 53 })
  | http (c : Core) (conf : HTTPServerConfig) :
      Started c (lifeOf .http (jobStartHTTPListener c conf).1
        (jobStartHTTPListener c conf).2)

/-! ### The lifecycle invariant -/

/-- The HTTP waiter has not passed `once.Do` yet. -/
def idleWaiter : PC → Bool
  | .recv => true
  | .once _ => true
  | _ => false

/-- The serve goroutine has not passed `once.Do` yet (or ended without error). -/
def idleServe : PC → Bool
  | .serving => true
  | .once _ => true
  | .finished => true
  | _ => false

/-- Position inside the teardown body: 1, 2, 3 before its first, second and
third statement. -/
def bodyStage : PC → Option Nat
  | .release _ => some 1
  | .remove _ => some 2
  | .publish _ => some 3
  | _ => none

/-- The error argument of the teardown a goroutine is running. -/
def bodyErr : PC → Option (Option String)
  | .release e => some e
  | .remove e => some e
  | .publish e => some e
  | _ => none

/-- How far the teardown has got in a control configuration: 0 not entered,
1 to 3 inside the body, 4 over; `none` for configurations that never occur. -/
def stageOf (k : Kind) (o : OnceState) (w v : PC) : Option Nat :=
  match k with
  | .http =>
    match o with
    | .fresh => if idleWaiter w && idleServe v then some 0 else none
    | .running =>
      match bodyStage w, bodyStage v with
      | some n, none => if idleServe v then some n else none
      | none, some n => if idleWaiter w then some n else none
      | _, _ => none
    | .done =>
      if (idleWaiter w || w == .finished) && (idleServe v || v == .send)
      then some 4 else none
  | _ =>
    if o == .fresh &&
       (v == .serving || v == .finished || (k == .dns && v == .send)) then
      match w with
      | .recv => some 0
      | .release none => some 1
      | .remove none => some 2
      | .publish none => some 3
      | .finished => some 4
      | _ => none
    else none

/-- The invariant of a lifecycle that started in `s0`: the logs are determined
by the teardown stage of the control configuration. -/
def Inv (s0 s : Life) : Prop :=
  s.kind = s0.kind ∧ s.job = s0.job ∧
  (∃ n, stageOf s.kind s.once s.waiter s.serve = some n ∧
    s.Teardowns.length = (if n = 0 then 0 else 1) ∧
    s.Stops = (if 2 ≤ n then 1 else 0) ∧
    s.Removes = (if 3 ≤ n then 1 else 0) ∧
    s.Jobs = (if 3 ≤ n then RemoveJob s0.Jobs s0.job else s0.Jobs) ∧
    s.Events = s0.Events ++
      (if n = 4 then s.Teardowns.map (stoppedEvent s0.job) else [])) ∧
  (∀ e, bodyErr s.waiter = some e → s.Teardowns = [e]) ∧
  (∀ e, bodyErr s.serve = some e → s.Teardowns = [e]) ∧
  (s.waiter = .recv → s.killers = s.kills) ∧
  (s.serve = .serving → s.failure = none) ∧
  (s.waiter = .recv → s.serve = .finished → s.kind ≠ .mtls → s.failure = none) ∧
  (∀ x, s.serve = .once x → x = s.failure ∧ x ≠ none) ∧
  s.killers ≤ s.kills ∧
  (s.kills = 0 → ∀ err ∈ s.Teardowns,
    if s.kind = .http then err = s.failure ∧ err ≠ none else err = none) ∧
  (s.kills = 0 → s.kind = .http → s.waiter ≠ .recv → s.once = .done)

/-- Statements a goroutine at a program point still has ahead of it, at most. -/
def PC.rank : PC → Nat
  | .serving => 7
  | .recv => 6
  | .once _ => 5
  | .release _ => 4
  | .remove _ => 3
  | .publish _ => 2
  | .send => 1
  | .finished => 0

/-- Bound on the goroutine steps still possible in a lifecycle state. -/
def Life.measure (s : Life) : Nat := s.waiter.rank + s.serve.rank

/-- Labels that are steps of the job's goroutines (not events of the
environment). -/
def Label.internal : Label → Bool
  | .rendezvousKill => true
  | .rendezvousServe => true
  | .waiterStep => true
  | .serveStep => true
  | _ => false

/-! ## Observations and sample data -/

/-- Number of Connected events in an event log. -/
def connectedCount (evs : List Event) : Nat :=
  (evs.filter (fun e => e.EventType == EventType.ConnectedEvent)).length

/-- The Connected event carrying a session. -/
def connectedEvent (s : Sliver) : Event :=
  { EventType := .ConnectedEvent, Job := none, Sliver := some s, Err := none }

/-- An anonymous session with the given id, as created on transport connect. -/
def anonymous (id : Nat) : Sliver :=
  { ID := id, Name := "", Hostname := "", Username := "", UID := "", GID := "",
    Os := "", Arch := "", PID := 0, Filename := "" }

/-- A registration payload with the given name. -/
def sampleRegister (name : String) : Register :=
  { Name := name, Hostname := "host", Username := "user", Uid := "1000",
    Gid := "1000", Os := "linux", Arch := "amd64", Pid := 42,
    Filename := "/tmp/agent" }

/-- A toy decoder for Register payloads: the empty payload is malformed, a
payload starting with 0 carries an empty name, any other a non-empty one. -/
def sampleUnmarshalRegister : Bytes → Except String Register
  | [] => .error "unexpected EOF"
  | 0 :: _ => .ok (sampleRegister "")
  | _ :: _ => .ok (sampleRegister "agent")

/-- A toy decoder for TunnelData frames: the first byte is the tunnel id. -/
def sampleUnmarshalData (data : Bytes) : TunnelData :=
  { TunnelID := data.headD 0, Data := data.tail }

/-- A toy decoder for TunnelClose frames: the first byte is the tunnel id. -/
def sampleUnmarshalClose (data : Bytes) : TunnelClose :=
  { TunnelID := data.headD 0, Err := "EOF" }

/-- A world with one tunnel, id 7, owned by session 1 and read by client 3. -/
def sampleWorld : World :=
  { Tunnels := [{ ID := 7, Sliver := anonymous 1, Client := 3 }],
    Sent := [], Events := [], Closed := [] }

/-- The empty handler state. -/
def emptyWorld : World :=
  { Tunnels := [], Sent := [], Events := [], Closed := [] }

/-- The RPC state of a fresh server whose next job id is 1. -/
def emptyCore : Core :=
  { NextJobID := 1, Jobs := [], Events := [], Signals := [], Spawned := [],
    Slivers := [], Tunnels := [], Requests := [] }

/-- A toy encoder: every message marshals without error. -/
def sampleMarshal : Msg → Bytes × Option String := fun _ => ([1], none)

/-- A toy decoder for JobKill requests: the first byte is the job id. -/
def sampleUnmarshalKill : Bytes → Except String JobKillReq
  | [] => .error "unexpected EOF"
  | b :: _ => .ok { ID := b }

/-- A toy decoder for mutual-TLS start requests: the first byte is the port. -/
def sampleUnmarshalMTLS : Bytes → Except String MTLSReq
  | [] => .error "unexpected EOF"
  | b :: _ => .ok { Server := "0.0.0.0", LPort := b }

/-- A toy bind step: port 80 is taken, every other port binds. -/
def sampleBind (_iface : String) (port : Nat) : Except String Nat :=
  if port = 80 then .error "address already in use" else .ok 1

/-- A toy decoder for ShellStart requests: session id, then tunnel id. -/
def sampleUnmarshalShell (data : Bytes) : ShellReq :=
  { SliverID := data.headD 0, EnablePTY := true, TunnelID := data.tail.headD 0 }

/-- A toy session: it answers every request with one byte. -/
def sampleRequest (_s : Sliver) (_e : Envelope) : Bytes × Option String :=
  ([9], none)

/-- An RPC state with session 1 connected and tunnel 7 open for it. -/
def shellCore : Core :=
  { emptyCore with Slivers := [anonymous 1],
                   Tunnels := [{ ID := 7, Sliver := anonymous 1, Client := 3 }] }

/-- The job a mutual-TLS start on port 8443 registers on a fresh server. -/
def sampleJob : Job :=
  { ID := 1, Name := "mTLS", Description := "mutual tls", Protocol := "tcp",
    Port := 8443 }

/-- A certificate provisioning step that always fails. -/
def failingProvision (_domain : String) : Except String Unit :=
  .error "certificate provisioning failed"

/-- An HTTPS listener configuration for example.com on port 443. -/
def sampleConf : HTTPServerConfig :=
  { Addr := "0.0.0.0:443", LPort := 443, Secure := true, Domain := "example.com",
    Cert := [1], Key := [2], ACME := false }

/-- The job `jobStartHTTPListener` registers for `sampleConf` on a fresh server. -/
def httpsJob : Job :=
  { ID := 1, Name := "https", Description := "https for domain example.com",
    Protocol := "tcp", Port := 443 }

/-- Lifecycle of the HTTPS job started from `sampleConf` on a fresh server. -/
def httpStart : Life :=
  lifeOf .http (jobStartHTTPListener emptyCore sampleConf).1
    (jobStartHTTPListener emptyCore sampleConf).2

/-- Lifecycle of the DNS job started for example.com on a fresh server. -/
def dnsStart : Life :=
  lifeOf .dns (jobStartDNSListener failingProvision emptyCore "example.com").1
    { ID := emptyCore.NextJobID, Name := "dns", Description := "example.com",
      Protocol := "udp", Port := 53 }

/-- Lifecycle of the mutual-TLS job started on port 8443 of a fresh server. -/
def mtlsStart : Life :=
  lifeOf .mtls (jobStartMTLSListener sampleBind emptyCore "0.0.0.0" 8443).1
    { ID := emptyCore.NextJobID, Name := "mTLS", Description := "mutual tls",
      Protocol := "tcp", Port := 8443 }

/-- The serve loop fails and nobody kills: the serve goroutine runs the cleanup,
then wakes the waiter. -/
def serveFailureRun : List Label :=
  [.serveErr "listener failed", .serveStep, .serveStep, .serveStep, .serveStep,
   .rendezvousServe, .waiterStep]

/-- The serve loop fails, then a kill arrives and its waiter wins the race for
the `sync.Once`: the cleanup runs with a nil error. -/
def killWinsRun : List Label :=
  [.serveErr "listener failed", .kill, .rendezvousKill, .waiterStep, .waiterStep,
   .waiterStep, .waiterStep, .serveStep]

/-- The DNS serve loop fails and the goroutine kills the job itself. -/
def dnsFailureRun : List Label :=
  [.serveErr "bind: permission denied", .rendezvousServe, .waiterStep, .waiterStep,
   .waiterStep]

/-! ## Theorems: session-traffic handlers -/

theorem lookupTunnel_id {ts : List Tunnel} {id : Nat} {t : Tunnel}
    (h : lookupTunnel ts id = some t) : t.ID = id := by
  have h1 := List.find?_some h
  simpa using h1

theorem lookupTunnel_mem {ts : List Tunnel} {id : Nat} {t : Tunnel}
    (h : lookupTunnel ts id = some t) : t ∈ ts :=
  List.mem_of_find?_eq_some h

theorem lookupTunnel_after_close (w : World) (id : Nat) (reason : String) :
    lookupTunnel (CloseTunnel w id reason).Tunnels id = none := by
  simp [lookupTunnel, CloseTunnel, List.find?_eq_none]

/-- C2: `tunnelDataHandler` appends an envelope to the send log exactly when the
referenced tunnel exists and the sender's id equals the id of the tunnel's
owning session; the envelope then goes to the tunnel's client, has type
TunnelData and carries the received bytes unchanged; otherwise the whole state
(send log and tunnel registry included) is unchanged. -/
theorem tunnelDataHandler_delivers_iff_owner (unmarshal : Bytes → TunnelData)
    (w : World) (sliver : Sliver) (data : Bytes) :
    ((tunnelDataHandler unmarshal w sliver data).Sent ≠ w.Sent ↔
      ∃ t, lookupTunnel w.Tunnels (unmarshal data).TunnelID = some t ∧
        sliver.ID = t.Sliver.ID) ∧
    (∀ t, lookupTunnel w.Tunnels (unmarshal data).TunnelID = some t →
        sliver.ID = t.Sliver.ID →
        tunnelDataHandler unmarshal w sliver data =
          { w with Sent := w.Sent ++
              [(t.Client, { Type_ := MsgType.MsgTunnelData, Data := data })] }) ∧
    ((¬ ∃ t, lookupTunnel w.Tunnels (unmarshal data).TunnelID = some t ∧
        sliver.ID = t.Sliver.ID) →
        tunnelDataHandler unmarshal w sliver data = w) ∧
    (tunnelDataHandler unmarshal w sliver data).Tunnels = w.Tunnels := by
  cases h : lookupTunnel w.Tunnels (unmarshal data).TunnelID with
  | none => simp [tunnelDataHandler, h]
  | some t =>
    by_cases ho : sliver.ID = t.Sliver.ID
    · simp [tunnelDataHandler, h, ho]
    · simp [tunnelDataHandler, h, ho]

/-- C2 at a concrete input: the owner's frame reaches client 3 unchanged, a frame
from another session changes nothing. -/
theorem tunnelDataHandler_sample :
    tunnelDataHandler sampleUnmarshalData sampleWorld (anonymous 1) [7, 104, 105] =
      { sampleWorld with Sent :=
          [(3, { Type_ := MsgType.MsgTunnelData, Data := [7, 104, 105] })] } ∧
    tunnelDataHandler sampleUnmarshalData sampleWorld (anonymous 2) [7, 104, 105] =
      sampleWorld := by
  constructor <;> decide

/-- C3: on the second of two close frames for tunnel 7 (the first, from the
owner, removed it) `tunnelCloseHandler` panics with a nil dereference instead of
completing; the same happens for a close frame on an empty registry. -/
theorem tunnelCloseHandler_absent_tunnel_faults :
    tunnelCloseHandler sampleUnmarshalClose sampleWorld (anonymous 1) [7] =
      .ok (CloseTunnel sampleWorld 7 "EOF") ∧
    tunnelCloseHandler sampleUnmarshalClose (CloseTunnel sampleWorld 7 "EOF")
      (anonymous 1) [7] = .error Fault.nilDeref ∧
    tunnelCloseHandler sampleUnmarshalClose emptyWorld (anonymous 1) [7] =
      .error Fault.nilDeref := by
  refine ⟨?_, ?_, ?_⟩ <;> rfl

/-- C9: for a close frame whose tunnel is in the registry, if the sender is the
recorded owner the handler calls `CloseTunnel` with the tunnel's id (the id of
the frame) and the frame's reason, exactly once, and the tunnel is then absent
from the registry; if the sender is not the owner the state is unchanged, so
`CloseTunnel` was not called and the tunnel is still registered. -/
theorem tunnelCloseHandler_present (unmarshal : Bytes → TunnelClose)
    (w : World) (sliver : Sliver) (data : Bytes) (t : Tunnel)
    (h : lookupTunnel w.Tunnels (unmarshal data).TunnelID = some t) :
    (sliver.ID = t.Sliver.ID →
      ∃ w1, tunnelCloseHandler unmarshal w sliver data = .ok w1 ∧
        w1 = CloseTunnel w t.ID (unmarshal data).Err ∧
        t.ID = (unmarshal data).TunnelID ∧
        w1.Closed = w.Closed ++ [(t.ID, (unmarshal data).Err)] ∧
        lookupTunnel w1.Tunnels (unmarshal data).TunnelID = none) ∧
    (sliver.ID ≠ t.Sliver.ID →
      tunnelCloseHandler unmarshal w sliver data = .ok w ∧
      lookupTunnel w.Tunnels (unmarshal data).TunnelID = some t) := by
  have hid := lookupTunnel_id h
  constructor
  · intro ho
    refine ⟨CloseTunnel w t.ID (unmarshal data).Err, ?_, rfl, hid, rfl, ?_⟩
    · simp [tunnelCloseHandler, h, ho]
    · rw [← hid]; exact lookupTunnel_after_close w t.ID _
  · intro ho
    refine ⟨?_, h⟩
    have ho1 : ¬ t.Sliver.ID = sliver.ID := fun e => ho e.symm
    simp [tunnelCloseHandler, h, ho1]

/-- C9 at a concrete input: tunnel 7 of `sampleWorld`, closed by its owner and
by a stranger. -/
theorem tunnelCloseHandler_present_witness :
    lookupTunnel sampleWorld.Tunnels (sampleUnmarshalClose [7]).TunnelID =
      some { ID := 7, Sliver := anonymous 1, Client := 3 } ∧
    tunnelCloseHandler sampleUnmarshalClose sampleWorld (anonymous 2) [7] =
      .ok sampleWorld :=
  ⟨by decide,
   ((tunnelCloseHandler_present sampleUnmarshalClose sampleWorld (anonymous 2) [7]
      { ID := 7, Sliver := anonymous 1, Client := 3 } (by decide)).2
      (by decide)).1⟩

theorem registerSliverHandler_named (unmarshal : Bytes → Except String Register)
    (w : World) (s : Sliver) (d : Bytes) (hs : s.Name ≠ "") :
    (registerSliverHandler unmarshal w s d).1 = w := by
  unfold registerSliverHandler
  cases unmarshal d with
  | error e => rfl
  | ok r => simp [hs]

theorem registerSliverHandler_ok (unmarshal : Bytes → Except String Register)
    (w : World) (s : Sliver) (d : Bytes) (r : Register)
    (hd : unmarshal d = .ok r) :
    (registerSliverHandler unmarshal w s d).2 = applyRegister s r := by
  unfold registerSliverHandler
  rw [hd]
  by_cases h : s.Name = "" <;> simp [h]

theorem registerAll_named (unmarshal : Bytes → Except String Register)
    (ds : List Bytes) :
    ∀ (w : World) (s : Sliver), s.Name ≠ "" →
      (∀ x ∈ ds, ∃ rx, unmarshal x = .ok rx ∧ rx.Name ≠ "") →
      (registerAll unmarshal w s ds).1 = w := by
  induction ds with
  | nil => intro w s _ _; rfl
  | cons d ds ih =>
    intro w s hs hall
    obtain ⟨r, hr, hn⟩ := hall d (List.mem_cons_self _ _)
    have h1 := registerSliverHandler_named unmarshal w s d hs
    have h2 := registerSliverHandler_ok unmarshal w s d r hr
    show (registerAll unmarshal (registerSliverHandler unmarshal w s d).1
      (registerSliverHandler unmarshal w s d).2 ds).1 = w
    rw [h1, h2]
    apply ih
    · simpa [applyRegister] using hn
    · intro x hx
      exact hall x (List.mem_cons_of_mem _ hx)

/-- C5: two Register messages that carry an empty name, handled for the
anonymous session 1, publish two Connected events instead of one: the test
`sliver.Name == ""` stands for "first registration", and it still holds on the
second message because the first left the name empty. -/
theorem register_two_connected_events :
    connectedCount
      (registerAll sampleUnmarshalRegister emptyWorld (anonymous 1) [[0], [0]]).1.Events
      = 2 ∧
    ¬ connectedCount
      (registerAll sampleUnmarshalRegister emptyWorld (anonymous 1) [[0], [0]]).1.Events
      = 1 ∧
    (registerAll sampleUnmarshalRegister emptyWorld (anonymous 1) [[0], [0]]).2.Name
      = "" := by
  refine ⟨?_, ?_, ?_⟩ <;> decide

/-- Where the handler does meet C5: for a session that starts anonymous and a
non-empty sequence of Register messages that all carry a non-empty name, the
whole sequence publishes exactly one event, a Connected event; it is published
by the first message, which takes the name from empty to non-empty, and the
session it carries has all nine identity fields equal to that message's
payload. Nothing else in the handler state changes. -/
theorem register_connected_once (unmarshal : Bytes → Except String Register)
    (w : World) (s : Sliver) (d : Bytes) (ds : List Bytes) (r : Register)
    (hanon : s.Name = "") (hd : unmarshal d = .ok r)
    (hall : ∀ x ∈ d :: ds, ∃ rx, unmarshal x = .ok rx ∧ rx.Name ≠ "") :
    (registerAll unmarshal w s (d :: ds)).1 =
      { w with Events := w.Events ++ [connectedEvent (applyRegister s r)] } ∧
    (registerSliverHandler unmarshal w s d).1 =
      { w with Events := w.Events ++ [connectedEvent (applyRegister s r)] } ∧
    connectedCount (registerAll unmarshal w s (d :: ds)).1.Events =
      connectedCount w.Events + 1 ∧
    (applyRegister s r).Name ≠ "" ∧
    (applyRegister s r).ID = s.ID ∧
    (applyRegister s r).Name = r.Name ∧
    (applyRegister s r).Hostname = r.Hostname ∧
    (applyRegister s r).Username = r.Username ∧
    (applyRegister s r).UID = r.Uid ∧
    (applyRegister s r).GID = r.Gid ∧
    (applyRegister s r).Os = r.Os ∧
    (applyRegister s r).Arch = r.Arch ∧
    (applyRegister s r).PID = r.Pid ∧
    (applyRegister s r).Filename = r.Filename := by
  have hrn : r.Name ≠ "" := by
    obtain ⟨rx, hx, hn⟩ := hall d (List.mem_cons_self _ _)
    rw [hd] at hx
    cases hx
    exact hn
  have hfirst : registerSliverHandler unmarshal w s d =
      ({ w with Events := w.Events ++ [connectedEvent (applyRegister s r)] },
        applyRegister s r) := by
    simp [registerSliverHandler, hd, hanon, Publish, connectedEvent]
  have hrest : (registerAll unmarshal w s (d :: ds)).1 =
      { w with Events := w.Events ++ [connectedEvent (applyRegister s r)] } := by
    show (registerAll unmarshal (registerSliverHandler unmarshal w s d).1
      (registerSliverHandler unmarshal w s d).2 ds).1 = _
    rw [hfirst]
    apply registerAll_named
    · simpa [applyRegister] using hrn
    · intro x hx
      exact hall x (List.mem_cons_of_mem _ hx)
  refine ⟨hrest, by rw [hfirst], ?_, by simpa [applyRegister] using hrn,
    rfl, rfl, rfl, rfl, rfl, rfl, rfl, rfl, rfl, rfl⟩
  rw [hrest]
  simp [connectedCount, connectedEvent, List.filter_append]

/-- Three named Register messages for the anonymous session 1 publish one
Connected event. -/
theorem register_connected_once_witness :
    (registerAll sampleUnmarshalRegister emptyWorld (anonymous 1)
        [[1], [2], [3]]).1 =
      { emptyWorld with Events := emptyWorld.Events ++
          [connectedEvent (applyRegister (anonymous 1) (sampleRegister "agent"))] } :=
  (register_connected_once sampleUnmarshalRegister emptyWorld (anonymous 1)
    [1] [[2], [3]] (sampleRegister "agent") rfl rfl
    (by
      intro x hx
      refine ⟨sampleRegister "agent", ?_, by decide⟩
      simp at hx
      rcases hx with h | h | h <;> subst h <;> rfl)).1

/-! ## Theorems: operator RPC handlers -/

/-- C1: a JobKill request for job id 7 on a server with no jobs makes
`rpcJobKill` panic with a nil dereference (the response record is built from
the absent job before the nil check), so no response is delivered; for a
registered job the response reports success and the control signal is raised. -/
theorem rpcJobKill_absent_job_faults :
    rpcJobKill sampleUnmarshalKill sampleMarshal emptyCore [7] =
      .error Fault.nilDeref ∧
    rpcJobKill sampleUnmarshalKill
        (fun m => match m with
          | .JobKill k => (if k.Success then [1] else [0], none)
          | _ => ([], none))
        { emptyCore with Jobs := [sampleJob] } [1] =
      .ok ({ emptyCore with Jobs := [sampleJob], Signals := [sampleJob] },
           { data := [1], err := none }) := by
  constructor <;> rfl

/-- C6: when the bind step of the mutual-TLS driver fails,
`jobStartMTLSListener` returns `(-1, err)` with the state unchanged (no job id
allocated, no job added, no goroutine launched, no event published), and
`rpcStartMTLSListener` passes the same error to the response callback, again
with the state unchanged. -/
theorem mtls_bind_failure_no_job (bind : String → Nat → Except String Nat)
    (c : Core) (bindIface : String) (port : Nat) (e : String)
    (hbind : bind bindIface port = .error e) :
    jobStartMTLSListener bind c bindIface port = (c, -1, some e) ∧
    ∀ (unmarshal : Bytes → Except String MTLSReq)
      (marshal : Msg → Bytes × Option String) (data : Bytes) (req : MTLSReq),
      unmarshal data = .ok req → req.Server = bindIface →
      toUint16 req.LPort = port →
      rpcStartMTLSListener unmarshal marshal bind c data =
        (c, { data := [], err := some e }) := by
  have h1 : jobStartMTLSListener bind c bindIface port = (c, -1, some e) := by
    simp [jobStartMTLSListener, hbind]
  refine ⟨h1, ?_⟩
  intro unmarshal marshal data req hreq hs hp
  subst hs; subst hp
  simp [rpcStartMTLSListener, hreq, h1]

/-- C6 at a concrete input: starting a mutual-TLS listener on the taken port
80 of a fresh server. -/
theorem mtls_bind_failure_no_job_witness :
    sampleBind "0.0.0.0" 80 = .error "address already in use" ∧
    jobStartMTLSListener sampleBind emptyCore "0.0.0.0" 80 =
      (emptyCore, -1, some "address already in use") ∧
    rpcStartMTLSListener sampleUnmarshalMTLS sampleMarshal sampleBind emptyCore [80] =
      (emptyCore, { data := [], err := some "address already in use" }) :=
  ⟨rfl,
   (mtls_bind_failure_no_job sampleBind emptyCore "0.0.0.0" 80
      "address already in use" rfl).1,
   (mtls_bind_failure_no_job sampleBind emptyCore "0.0.0.0" 80
      "address already in use" rfl).2 sampleUnmarshalMTLS sampleMarshal [80]
      { Server := "0.0.0.0", LPort := 80 } rfl rfl (by decide)⟩

/-- C8: a ShellStart request for the unknown session 2 (tunnel 7 known), and one
for the known session 1 with the unknown tunnel 9, both make `rpcShell` panic
with a nil dereference: the response callback is never invoked. With both
known, the request is forwarded and the reply returned. -/
theorem rpcShell_unknown_ids_fault :
    rpcShell sampleUnmarshalShell sampleMarshal sampleRequest shellCore [2, 7] =
      .error Fault.nilDeref ∧
    rpcShell sampleUnmarshalShell sampleMarshal sampleRequest shellCore [1, 9] =
      .error Fault.nilDeref ∧
    rpcShell sampleUnmarshalShell sampleMarshal sampleRequest shellCore [1, 7] =
      .ok ({ shellCore with Requests :=
              [(1, { Type_ := MsgType.MsgShellReq, Data := [1] })] },
           { data := [9], err := none }) := by
  refine ⟨?_, ?_, ?_⟩ <;> rfl

/-! ## Theorems: job lifecycle -/

theorem inv_start (kind : Kind) (c : Core) (job : Job) :
    Inv (lifeOf kind c job) (lifeOf kind c job) := by
  cases kind <;> simp [Inv, lifeOf, stageOf, idleWaiter, idleServe, bodyErr]

theorem stageOf_serveNil (k : Kind) (o : OnceState) (w : PC) (n : Nat)
    (h : stageOf k o w .serving = some n) : stageOf k o w .finished = some n := by
  revert h
  cases k <;> cases o <;> cases w <;>
    simp [stageOf, idleWaiter, idleServe, bodyStage]

theorem stageOf_serveErr_dns (o : OnceState) (w : PC) (n : Nat)
    (h : stageOf .dns o w .serving = some n) : stageOf .dns o w .send = some n := by
  revert h
  cases o <;> cases w <;> simp [stageOf]

theorem stageOf_serveErr_http (o : OnceState) (w : PC) (n : Nat) (e : String)
    (h : stageOf .http o w .serving = some n) :
    stageOf .http o w (.once (some e)) = some n := by
  revert h
  cases o <;> cases w <;> simp [stageOf, idleWaiter, idleServe, bodyStage]

theorem stageOf_recv_http (o : OnceState) (v : PC) (n : Nat)
    (h : stageOf .http o .recv v = some n) :
    stageOf .http o (.once none) v = some n := by
  revert h
  cases o <;> cases v <;> simp [stageOf, idleWaiter, idleServe, bodyStage]

theorem stageOf_recv_other (k : Kind) (hk : k ≠ .http) (o : OnceState) (v : PC)
    (n : Nat) (h : stageOf k o .recv v = some n) :
    n = 0 ∧ stageOf k o (.release none) v = some 1 := by
  revert h
  cases k <;> cases o <;> cases v <;> simp_all [stageOf]

theorem stageOf_send_finished (k : Kind) (o : OnceState) (w : PC) (n : Nat)
    (h : stageOf k o w .send = some n) : stageOf k o w .finished = some n := by
  revert h
  cases k <;> cases o <;> cases w <;>
    simp [stageOf, idleWaiter, idleServe, bodyStage]

theorem inv_kill (s0 s s1 : Life) (h : Inv s0 s)
    (hs : step .kill s = some s1) : Inv s0 s1 := by
  obtain ⟨hk, hj, ⟨n, hn, hT, hS, hR, hJ, hE⟩, hw, hv, hL1, hL2, hL3, hL4, hK1,
    hK2, hK3⟩ := h
  simp only [step] at hs
  split at hs
  · cases hs
    refine ⟨hk, hj, ⟨n, hn, hT, hS, hR, hJ, hE⟩, hw, hv, ?_, hL2, hL3, hL4, ?_, ?_, ?_⟩
    · intro h1
      show s.killers + 1 = s.kills + 1
      rw [hL1 h1]
    · exact Nat.succ_le_succ hK1
    · intro h0; exact absurd h0 (Nat.succ_ne_zero _)
    · intro h0; exact absurd h0 (Nat.succ_ne_zero _)
  · cases hs

theorem inv_serveNil (s0 s s1 : Life) (h : Inv s0 s)
    (hs : step .serveNil s = some s1) : Inv s0 s1 := by
  obtain ⟨hk, hj, ⟨n, hn, hT, hS, hR, hJ, hE⟩, hw, hv, hL1, hL2, hL3, hL4, hK1,
    hK2, hK3⟩ := h
  simp only [step] at hs
  split at hs
  · rename_i hv1
    cases hs
    have hf := hL2 hv1
    rw [hv1] at hn
    refine ⟨hk, hj, ⟨n, stageOf_serveNil _ _ _ _ hn, hT, hS, hR, hJ, hE⟩, hw, ?_,
      hL1, ?_, ?_, ?_, hK1, hK2, hK3⟩
    · intro e he; simp [bodyErr] at he
    · intro h1; cases h1
    · intro _ _ _; exact hf
    · intro x h1; cases h1
  · cases hs

theorem stageOf_other_serve (k : Kind) (hk : k ≠ .http) (o : OnceState) (w v : PC)
    (n : Nat) (h : stageOf k o w v = some n) : bodyErr v = none := by
  revert h
  cases k <;> cases o <;> cases v <;> simp_all [stageOf, bodyErr]

theorem stageOf_http_send (o : OnceState) (w : PC) (n : Nat)
    (h : stageOf .http o w .send = some n) : o = .done := by
  revert h
  cases o <;> cases w <;> simp [stageOf, idleWaiter, idleServe, bodyStage]

theorem inv_serveErr (s0 s s1 : Life) (e : String) (h : Inv s0 s)
    (hs : step (.serveErr e) s = some s1) : Inv s0 s1 := by
  obtain ⟨k, job, Jobs, Events, o, w, v, killers, kills, failure, Stops, Removes,
    Teardowns⟩ := s
  obtain ⟨hk, hj, ⟨n, hn, hT, hS, hR, hJ, hE⟩, hw, hv, hL1, hL2, hL3, hL4, hK1,
    hK2, hK3⟩ := h
  simp only at hk hj hn hT hS hR hJ hE hw hv hL1 hL2 hL3 hL4 hK1 hK2 hK3
  simp only [step] at hs
  split at hs
  · rename_i hv1
    subst hv1
    have hf := hL2 rfl
    subst hf
    cases k
    · cases hs
      refine ⟨hk, hj, ⟨n, stageOf_serveNil _ _ _ _ hn, hT, hS, hR, hJ, hE⟩, hw, ?_,
        hL1, ?_, ?_, ?_, hK1, ?_, hK3⟩
      · intro e he; simp [bodyErr] at he
      · intro h1; cases h1
      · intro _ _ h3; exact absurd rfl h3
      · intro x h1; cases h1
      · intro h0 err herr
        simpa using hK2 h0 err herr
    · cases hs
      refine ⟨hk, hj, ⟨n, stageOf_serveErr_dns _ _ _ hn, hT, hS, hR, hJ, hE⟩, hw, ?_,
        hL1, ?_, ?_, ?_, hK1, ?_, hK3⟩
      · intro e he; simp [bodyErr] at he
      · intro h1; cases h1
      · intro _ h2; cases h2
      · intro x h1; cases h1
      · intro h0 err herr
        simpa using hK2 h0 err herr
    · cases hs
      refine ⟨hk, hj, ⟨n, stageOf_serveErr_http _ _ _ e hn, hT, hS, hR, hJ, hE⟩, hw,
        ?_, hL1, ?_, ?_, ?_, hK1, ?_, hK3⟩
      · intro e he; simp [bodyErr] at he
      · intro h1; cases h1
      · intro _ h2; cases h2
      · intro x h1; cases h1; exact ⟨rfl, by simp⟩
      · intro h0 err herr
        have := hK2 h0 err herr
        simp at this
  · cases hs

theorem inv_rendezvousKill (s0 s s1 : Life) (h : Inv s0 s)
    (hs : step .rendezvousKill s = some s1) : Inv s0 s1 := by
  obtain ⟨k, job, Jobs, Events, o, w, v, killers, kills, failure, Stops, Removes,
    Teardowns⟩ := s
  obtain ⟨hk, hj, ⟨n, hn, hT, hS, hR, hJ, hE⟩, hw, hv, hL1, hL2, hL3, hL4, hK1,
    hK2, hK3⟩ := h
  simp only at hk hj hn hT hS hR hJ hE hw hv hL1 hL2 hL3 hL4 hK1 hK2 hK3
  simp only [step] at hs
  split at hs
  · rename_i hc
    obtain ⟨hrecv, hpos⟩ := hc
    subst hrecv
    have hkills : kills ≠ 0 := by omega
    have hle : killers - 1 ≤ kills := by omega
    by_cases hkind : k = .http
    · subst hkind
      simp only [Life.received] at hs
      cases hs
      refine ⟨hk, hj, ⟨n, stageOf_recv_http _ _ _ hn, hT, hS, hR, hJ, hE⟩, ?_, hv, ?_,
        hL2, ?_, hL4, hle, ?_, ?_⟩
      · intro e he; simp [bodyErr] at he
      · intro h1; cases h1
      · intro h1; cases h1
      · intro h0; exact absurd h0 hkills
      · intro h0; exact absurd h0 hkills
    · obtain ⟨hn0, hst⟩ := stageOf_recv_other _ hkind _ _ _ hn
      subst hn0
      have hnil : Teardowns = [] := List.length_eq_zero.mp (by simpa using hT)
      subst hnil
      have hbody := stageOf_other_serve _ hkind _ _ _ _ hn
      have hs1 : s1 = Life.mk k job Jobs Events o (.release none) v (killers - 1)
          kills failure Stops Removes [none] := by
        cases k <;> simp_all [Life.received]
      subst hs1
      refine ⟨hk, hj, ⟨1, hst, ?_, ?_, ?_, ?_, ?_⟩, ?_, ?_, ?_, hL2, ?_, hL4, hle, ?_,
        ?_⟩
      · simp
      · simpa using hS
      · simpa using hR
      · simpa using hJ
      · simpa using hE
      · intro e he
        simp [bodyErr] at he
        simp [he]
      · intro e he
        rw [hbody] at he; cases he
      · intro h1; cases h1
      · intro h1; cases h1
      · intro h0; exact absurd h0 hkills
      · intro h0; exact absurd h0 hkills
  · cases hs

theorem inv_rendezvousServe (s0 s s1 : Life) (h : Inv s0 s)
    (hs : step .rendezvousServe s = some s1) : Inv s0 s1 := by
  obtain ⟨k, job, Jobs, Events, o, w, v, killers, kills, failure, Stops, Removes,
    Teardowns⟩ := s
  obtain ⟨hk, hj, ⟨n, hn, hT, hS, hR, hJ, hE⟩, hw, hv, hL1, hL2, hL3, hL4, hK1,
    hK2, hK3⟩ := h
  simp only at hk hj hn hT hS hR hJ hE hw hv hL1 hL2 hL3 hL4 hK1 hK2 hK3
  simp only [step] at hs
  split at hs
  · rename_i hc
    obtain ⟨hrecv, hsend⟩ := hc
    subst hrecv
    subst hsend
    have hn1 := stageOf_send_finished _ _ _ _ hn
    by_cases hkind : k = .http
    · subst hkind
      have hdone := stageOf_http_send _ _ _ hn
      subst hdone
      simp only [Life.received] at hs
      cases hs
      refine ⟨hk, hj, ⟨n, stageOf_recv_http _ _ _ hn1, hT, hS, hR, hJ, hE⟩, ?_, ?_, ?_,
        ?_, ?_, ?_, hK1, hK2, ?_⟩
      · intro e he; simp [bodyErr] at he
      · intro e he; simp [bodyErr] at he
      · intro h1; cases h1
      · intro h1; cases h1
      · intro h1; cases h1
      · intro x h1; cases h1
      · intro _ _ _; rfl
    · obtain ⟨hn0, hst⟩ := stageOf_recv_other _ hkind _ _ _ hn1
      subst hn0
      have hnil : Teardowns = [] := List.length_eq_zero.mp (by simpa using hT)
      subst hnil
      have hs1 : s1 = Life.mk k job Jobs Events o (.release none) .finished killers
          kills failure Stops Removes [none] := by
        cases k <;> simp_all [Life.received]
      subst hs1
      refine ⟨hk, hj, ⟨1, hst, ?_, ?_, ?_, ?_, ?_⟩, ?_, ?_, ?_, ?_, ?_, ?_, hK1, ?_,
        ?_⟩
      · simp
      · simpa using hS
      · simpa using hR
      · simpa using hJ
      · simpa using hE
      · intro e he
        simp [bodyErr] at he
        simp [he]
      · intro e he; simp [bodyErr] at he
      · intro h1; cases h1
      · intro h1; cases h1
      · intro h1; cases h1
      · intro x h1; cases h1
      · intro _ err herr
        simp at herr
        simp [hkind, herr]
      · intro _ h1; exact absurd h1 hkind
  · cases hs

theorem stageOf_waiter_once_fresh (k : Kind) (err : Option String) (v : PC) (n : Nat)
    (h : stageOf k .fresh (.once err) v = some n) :
    k = .http ∧ n = 0 ∧
      stageOf .http .running (.release err) v = some 1 ∧ bodyErr v = none := by
  revert h
  cases k <;> cases v <;>
    simp [stageOf, idleWaiter, idleServe, bodyStage, bodyErr] <;> omega

theorem stageOf_waiter_once_done (k : Kind) (err : Option String) (v : PC) (n : Nat)
    (h : stageOf k .done (.once err) v = some n) :
    k = .http ∧ stageOf .http .done .finished v = some n := by
  revert h
  cases k <;> cases v <;>
    simp [stageOf, idleWaiter, idleServe, bodyStage, bodyErr]

theorem stageOf_waiter_release (k : Kind) (o : OnceState) (err : Option String)
    (v : PC) (n : Nat) (h : stageOf k o (.release err) v = some n) :
    n = 1 ∧ stageOf k o (.remove err) v = some 2 := by
  revert h
  cases k <;> cases o <;> cases err <;> cases v <;>
    simp [stageOf, idleWaiter, idleServe, bodyStage, bodyErr] <;> omega

theorem stageOf_waiter_remove (k : Kind) (o : OnceState) (err : Option String)
    (v : PC) (n : Nat) (h : stageOf k o (.remove err) v = some n) :
    n = 2 ∧ stageOf k o (.publish err) v = some 3 := by
  revert h
  cases k <;> cases o <;> cases err <;> cases v <;>
    simp [stageOf, idleWaiter, idleServe, bodyStage, bodyErr] <;> omega

theorem stageOf_waiter_publish (k : Kind) (o : OnceState) (err : Option String)
    (v : PC) (n : Nat) (h : stageOf k o (.publish err) v = some n) :
    n = 3 ∧ stageOf k (if k = .http then .done else o) .finished v = some 4 := by
  revert h
  cases k <;> cases o <;> cases err <;> cases v <;>
    simp [stageOf, idleWaiter, idleServe, bodyStage, bodyErr] <;> omega

theorem stageOf_serve_once_fresh (k : Kind) (err : Option String) (w : PC) (n : Nat)
    (h : stageOf k .fresh w (.once err) = some n) :
    k = .http ∧ n = 0 ∧
      stageOf .http .running w (.release err) = some 1 ∧ bodyErr w = none := by
  revert h
  cases k <;> cases w <;>
    simp [stageOf, idleWaiter, idleServe, bodyStage, bodyErr] <;> omega

theorem stageOf_serve_once_done (k : Kind) (err : Option String) (w : PC) (n : Nat)
    (h : stageOf k .done w (.once err) = some n) :
    k = .http ∧ stageOf .http .done w .send = some n := by
  revert h
  cases k <;> cases w <;>
    simp [stageOf, idleWaiter, idleServe, bodyStage, bodyErr]

theorem stageOf_serve_release (k : Kind) (o : OnceState) (err : Option String)
    (w : PC) (n : Nat) (h : stageOf k o w (.release err) = some n) :
    n = 1 ∧ stageOf k o w (.remove err) = some 2 := by
  revert h
  cases k <;> cases o <;> cases w <;>
    simp [stageOf, idleWaiter, idleServe, bodyStage, bodyErr] <;> omega

theorem stageOf_serve_remove (k : Kind) (o : OnceState) (err : Option String)
    (w : PC) (n : Nat) (h : stageOf k o w (.remove err) = some n) :
    n = 2 ∧ stageOf k o w (.publish err) = some 3 := by
  revert h
  cases k <;> cases o <;> cases w <;>
    simp [stageOf, idleWaiter, idleServe, bodyStage, bodyErr] <;> omega

theorem stageOf_serve_publish (k : Kind) (o : OnceState) (err : Option String)
    (w : PC) (n : Nat) (h : stageOf k o w (.publish err) = some n) :
    n = 3 ∧ k = .http ∧ stageOf .http .done w .send = some 4 := by
  revert h
  cases k <;> cases o <;> cases w <;>
    simp [stageOf, idleWaiter, idleServe, bodyStage, bodyErr] <;> omega

theorem inv_waiterStep (s0 s s1 : Life) (h : Inv s0 s)
    (hs : step .waiterStep s = some s1) : Inv s0 s1 := by
  obtain ⟨k, job, Jobs, Events, o, w, v, killers, kills, failure, Stops, Removes,
    Teardowns⟩ := s
  obtain ⟨hk, hj, ⟨n, hn, hT, hS, hR, hJ, hE⟩, hw, hv, hL1, hL2, hL3, hL4, hK1,
    hK2, hK3⟩ := h
  simp only at hk hj hn hT hS hR hJ hE hw hv hL1 hL2 hL3 hL4 hK1 hK2 hK3
  cases w with
  | once err =>
    cases o with
    | fresh =>
      simp only [step, Life.stmt, Option.map] at hs
      cases hs
      obtain ⟨hkind, hn0, hst, hbody⟩ := stageOf_waiter_once_fresh _ _ _ _ hn
      subst hkind; subst hn0
      have hnil : Teardowns = [] := List.length_eq_zero.mp (by simpa using hT)
      subst hnil
      have hkills : kills ≠ 0 := by
        intro h0
        have := hK3 h0 rfl (by simp)
        cases this
      refine ⟨hk, hj, ⟨1, hst, ?_, ?_, ?_, ?_, ?_⟩, ?_, ?_, ?_, hL2, ?_, hL4, hK1, ?_,
        ?_⟩
      · simp
      · simpa using hS
      · simpa using hR
      · simpa using hJ
      · simpa using hE
      · intro e he
        simp [bodyErr] at he
        simp [he]
      · intro e he
        rw [hbody] at he; cases he
      · intro h1; cases h1
      · intro h1; cases h1
      · intro h0; exact absurd h0 hkills
      · intro h0; exact absurd h0 hkills
    | running =>
      simp [step, Life.stmt] at hs
    | done =>
      simp only [step, Life.stmt, Option.map] at hs
      cases hs
      obtain ⟨hkind, hst⟩ := stageOf_waiter_once_done _ _ _ _ hn
      subst hkind
      refine ⟨hk, hj, ⟨n, hst, hT, hS, hR, hJ, hE⟩, ?_, hv, ?_, hL2, ?_, hL4, hK1, hK2,
        ?_⟩
      · intro e he; simp [bodyErr] at he
      · intro h1; cases h1
      · intro h1; cases h1
      · intro _ _ _; rfl
  | release err =>
    simp only [step, Life.stmt, Option.map] at hs
    cases hs
    obtain ⟨hn1, hst⟩ := stageOf_waiter_release _ _ _ _ _ hn
    subst hn1
    have hTe := hw err rfl
    refine ⟨hk, hj, ⟨2, hst, ?_, ?_, ?_, ?_, ?_⟩, ?_, hv, ?_, hL2, ?_, hL4, hK1, hK2,
      ?_⟩
    · simpa using hT
    · simp [hS]
    · simpa using hR
    · simpa using hJ
    · simpa using hE
    · intro e he
      simp [bodyErr] at he
      simp [hTe, he]
    · intro h1; cases h1
    · intro h1; cases h1
    · intro h0 h1 _
      exact hK3 h0 h1 (by simp)
  | remove err =>
    simp only [step, Life.stmt, Option.map] at hs
    cases hs
    obtain ⟨hn1, hst⟩ := stageOf_waiter_remove _ _ _ _ _ hn
    subst hn1
    have hTe := hw err rfl
    refine ⟨hk, hj, ⟨3, hst, ?_, ?_, ?_, ?_, ?_⟩, ?_, hv, ?_, hL2, ?_, hL4, hK1, hK2,
      ?_⟩
    · simpa using hT
    · simpa using hS
    · simp [hR]
    · simp at hJ
      simp [hJ, hj]
    · simpa using hE
    · intro e he
      simp [bodyErr] at he
      simp [hTe, he]
    · intro h1; cases h1
    · intro h1; cases h1
    · intro h0 h1 _
      exact hK3 h0 h1 (by simp)
  | publish err =>
    simp only [step, Life.stmt, Option.map] at hs
    cases hs
    obtain ⟨hn1, hst⟩ := stageOf_waiter_publish _ _ _ _ _ hn
    subst hn1
    have hTe := hw err rfl
    refine ⟨hk, hj, ⟨4, hst, ?_, ?_, ?_, ?_, ?_⟩, ?_, hv, ?_, hL2, ?_, hL4, hK1, hK2,
      ?_⟩
    · simpa using hT
    · simpa using hS
    · simpa using hR
    · simpa using hJ
    · simp at hE
      simp [hE, hTe, hj]
    · intro e he; simp [bodyErr] at he
    · intro h1; cases h1
    · intro h1; cases h1
    · intro _ h1 _
      have h1a : k = .http := h1
      rw [if_pos h1a]
  | recv => simp [step, Life.stmt] at hs
  | serving => simp [step, Life.stmt] at hs
  | send => simp [step, Life.stmt] at hs
  | finished => simp [step, Life.stmt] at hs

theorem inv_serveStep (s0 s s1 : Life) (h : Inv s0 s)
    (hs : step .serveStep s = some s1) : Inv s0 s1 := by
  obtain ⟨k, job, Jobs, Events, o, w, v, killers, kills, failure, Stops, Removes,
    Teardowns⟩ := s
  obtain ⟨hk, hj, ⟨n, hn, hT, hS, hR, hJ, hE⟩, hw, hv, hL1, hL2, hL3, hL4, hK1,
    hK2, hK3⟩ := h
  simp only at hk hj hn hT hS hR hJ hE hw hv hL1 hL2 hL3 hL4 hK1 hK2 hK3
  cases v with
  | once err =>
    cases o with
    | fresh =>
      simp only [step, Life.stmt, Option.map] at hs
      cases hs
      obtain ⟨hkind, hn0, hst, hbody⟩ := stageOf_serve_once_fresh _ _ _ _ hn
      subst hkind; subst hn0
      have hnil : Teardowns = [] := List.length_eq_zero.mp (by simpa using hT)
      subst hnil
      have hfail := hL4 err rfl
      refine ⟨hk, hj, ⟨1, hst, ?_, ?_, ?_, ?_, ?_⟩, ?_, ?_, hL1, ?_, ?_, ?_, hK1, ?_,
        ?_⟩
      · simp
      · simpa using hS
      · simpa using hR
      · simpa using hJ
      · simpa using hE
      · intro e he
        rw [hbody] at he; cases he
      · intro e he
        simp [bodyErr] at he
        simp [he]
      · intro h1; cases h1
      · intro _ h1; cases h1
      · intro x h1; cases h1
      · intro _ e he
        simp at he
        subst he
        simpa using hfail
      · intro h0 h1 h2
        have := hK3 h0 h1 h2
        cases this
    | running =>
      simp [step, Life.stmt] at hs
    | done =>
      simp only [step, Life.stmt, Option.map] at hs
      cases hs
      obtain ⟨hkind, hst⟩ := stageOf_serve_once_done _ _ _ _ hn
      subst hkind
      refine ⟨hk, hj, ⟨n, hst, hT, hS, hR, hJ, hE⟩, hw, ?_, hL1, ?_, ?_, ?_, hK1, hK2,
        hK3⟩
      · intro e he; simp [bodyErr] at he
      · intro h1; cases h1
      · intro _ h1; cases h1
      · intro x h1; cases h1
  | release err =>
    simp only [step, Life.stmt, Option.map] at hs
    cases hs
    obtain ⟨hn1, hst⟩ := stageOf_serve_release _ _ _ _ _ hn
    subst hn1
    have hTe := hv err rfl
    refine ⟨hk, hj, ⟨2, hst, ?_, ?_, ?_, ?_, ?_⟩, hw, ?_, hL1, ?_, ?_, ?_, hK1, hK2,
      hK3⟩
    · simpa using hT
    · simp [hS]
    · simpa using hR
    · simpa using hJ
    · simpa using hE
    · intro e he
      simp [bodyErr] at he
      simp [hTe, he]
    · intro h1; cases h1
    · intro _ h1; cases h1
    · intro x h1; cases h1
  | remove err =>
    simp only [step, Life.stmt, Option.map] at hs
    cases hs
    obtain ⟨hn1, hst⟩ := stageOf_serve_remove _ _ _ _ _ hn
    subst hn1
    have hTe := hv err rfl
    refine ⟨hk, hj, ⟨3, hst, ?_, ?_, ?_, ?_, ?_⟩, hw, ?_, hL1, ?_, ?_, ?_, hK1, hK2,
      hK3⟩
    · simpa using hT
    · simpa using hS
    · simp [hR]
    · simp at hJ
      simp [hJ, hj]
    · simpa using hE
    · intro e he
      simp [bodyErr] at he
      simp [hTe, he]
    · intro h1; cases h1
    · intro _ h1; cases h1
    · intro x h1; cases h1
  | publish err =>
    simp only [step, Life.stmt, Option.map] at hs
    cases hs
    obtain ⟨hn1, hkind, hst⟩ := stageOf_serve_publish _ _ _ _ _ hn
    subst hn1; subst hkind
    have hTe := hv err rfl
    refine ⟨hk, hj, ⟨4, hst, ?_, ?_, ?_, ?_, ?_⟩, hw, ?_, hL1, ?_, ?_, ?_, hK1, hK2,
      ?_⟩
    · simpa using hT
    · simpa using hS
    · simpa using hR
    · simpa using hJ
    · simp at hE
      simp [hE, hTe, hj]
    · intro e he; simp [bodyErr] at he
    · intro h1; cases h1
    · intro _ h1; cases h1
    · intro x h1; cases h1
    · intro _ _ _; rfl
  | recv => simp [step, Life.stmt] at hs
  | serving => simp [step, Life.stmt] at hs
  | send => simp [step, Life.stmt] at hs
  | finished => simp [step, Life.stmt] at hs

theorem inv_step (s0 s s1 : Life) (l : Label) (h : Inv s0 s)
    (hs : step l s = some s1) : Inv s0 s1 := by
  cases l with
  | kill => exact inv_kill s0 s s1 h hs
  | serveErr e => exact inv_serveErr s0 s s1 e h hs
  | serveNil => exact inv_serveNil s0 s s1 h hs
  | rendezvousKill => exact inv_rendezvousKill s0 s s1 h hs
  | rendezvousServe => exact inv_rendezvousServe s0 s s1 h hs
  | waiterStep => exact inv_waiterStep s0 s s1 h hs
  | serveStep => exact inv_serveStep s0 s s1 h hs

theorem inv_run (s0 : Life) (tr : List Label) :
    ∀ (s s1 : Life), Inv s0 s → run tr s = some s1 → Inv s0 s1 := by
  induction tr with
  | nil =>
    intro s s1 h hr
    simp [run] at hr
    exact hr ▸ h
  | cons l ls ih =>
    intro s s1 h hr
    simp only [run] at hr
    cases hstep : step l s with
    | none => rw [hstep] at hr; cases hr
    | some s2 =>
      rw [hstep] at hr
      exact ih s2 s1 (inv_step s0 s s2 l h hstep) hr

set_option maxHeartbeats 1600000 in
theorem stage_quiescent (s0 s : Life) (h : Inv s0 s) (hq : quiescent s = true)
    (ht : triggered s = true) :
    stageOf s.kind s.once s.waiter s.serve = some 4 := by
  obtain ⟨k, job, Jobs, Events, o, w, v, killers, kills, failure, Stops, Removes,
    Teardowns⟩ := s
  obtain ⟨hk, hj, ⟨n, hn, hT, hS, hR, hJ, hE⟩, hw, hv, hL1, hL2, hL3, hL4, hK1,
    hK2, hK3⟩ := h
  simp only at hn hL1 hL2 hL3 hK1
  clear hT hS hR hJ hE hw hv hK2 hK3 hL4 hk hj
  simp only [quiescent, triggered, step, Bool.and_eq_true, Bool.or_eq_true,
    decide_eq_true_eq, Option.isNone_iff_eq_none, Option.map_eq_none'] at hq ht
  cases k <;> cases o <;> cases w <;> cases v <;>
    simp [stageOf, idleWaiter, idleServe, bodyStage, Life.stmt] at hn hq ⊢ <;>
    simp_all

theorem received_fields (s : Life) :
    s.received.kills = s.kills ∧ s.received.failure = s.failure ∧
    s.received.serve = s.serve := by
  unfold Life.received
  cases s.kind <;> simp

theorem stmt_fields (s r : Life) (pc after q : PC)
    (h : s.stmt pc after = some (r, q)) :
    r.kills = s.kills ∧ r.failure = s.failure ∧ r.serve = s.serve ∧
    r.waiter = s.waiter ∧ (after ≠ .serving → q ≠ .serving) := by
  unfold Life.stmt at h
  cases pc <;> simp at h
  · split at h <;> simp at h <;> obtain ⟨h1, h2⟩ := h <;> subst h1 <;> subst h2 <;>
      simp
  all_goals (obtain ⟨h1, h2⟩ := h; subst h1; subst h2; simp)

theorem step_history (l : Label) (s s1 : Life) (h : step l s = some s1) :
    s1.kills = s.kills + (if l = .kill then 1 else 0) ∧
    (∀ e, l = .serveErr e → s1.failure = some e) ∧
    ((∀ e, l ≠ .serveErr e) → s1.failure = s.failure) ∧
    (s.serve ≠ .serving → s1.serve ≠ .serving ∧ s1.failure = s.failure) ∧
    (∀ e, l = .serveErr e → s1.serve ≠ .serving) := by
  cases l with
  | kill =>
    simp only [step] at h
    split at h
    · cases h; simp
    · cases h
  | serveErr e =>
    simp only [step] at h
    split at h
    · rename_i hv
      cases hk : s.kind <;> rw [hk] at h <;> cases h <;> simp [hv]
    · cases h
  | serveNil =>
    simp only [step] at h
    split at h
    · rename_i hv
      cases h; simp [hv]
    · cases h
  | rendezvousKill =>
    simp only [step] at h
    split at h
    · cases h
      have := received_fields s
      simp [this.1, this.2.1, this.2.2]
    · cases h
  | rendezvousServe =>
    simp only [step] at h
    split at h
    · cases h
      have := received_fields s
      simp [this.1, this.2.1]
    · cases h
  | waiterStep =>
    simp only [step, Option.map_eq_some'] at h
    obtain ⟨⟨r, q⟩, hr, hs1⟩ := h
    subst hs1
    have := stmt_fields s r _ _ q hr
    simp [this.1, this.2.1, this.2.2.1]
  | serveStep =>
    simp only [step, Option.map_eq_some'] at h
    obtain ⟨⟨r, q⟩, hr, hs1⟩ := h
    subst hs1
    have := stmt_fields s r _ _ q hr
    simp [this.1, this.2.1]
    intro _
    exact this.2.2.2.2 (by simp)

theorem run_kills (tr : List Label) :
    ∀ (s s1 : Life), run tr s = some s1 → s1.kills = s.kills + tr.count .kill := by
  induction tr with
  | nil =>
    intro s s1 hr
    simp [run] at hr
    simp [hr]
  | cons l ls ih =>
    intro s s1 hr
    simp only [run] at hr
    cases hstep : step l s with
    | none => rw [hstep] at hr; cases hr
    | some s2 =>
      rw [hstep] at hr
      have h1 := (step_history l s s2 hstep).1
      have h2 := ih s2 s1 hr
      rw [h2, h1, List.count_cons]
      by_cases hl : l = .kill
      · subst hl; simp; omega
      · have : (l == Label.kill) = false := by simpa using hl
        simp [hl, this]

theorem run_failure_keep (tr : List Label) :
    ∀ (s s1 : Life), s.serve ≠ .serving → run tr s = some s1 →
      s1.failure = s.failure ∧ s1.serve ≠ .serving := by
  induction tr with
  | nil =>
    intro s s1 hv hr
    simp [run] at hr
    subst hr
    exact ⟨rfl, hv⟩
  | cons l ls ih =>
    intro s s1 hv hr
    simp only [run] at hr
    cases hstep : step l s with
    | none => rw [hstep] at hr; cases hr
    | some s2 =>
      rw [hstep] at hr
      have h1 := (step_history l s s2 hstep).2.2.2.1 hv
      have h2 := ih s2 s1 h1.1 hr
      exact ⟨h2.1.trans h1.2, h2.2⟩

theorem run_failure (tr : List Label) (e : String) :
    ∀ (s s1 : Life), run tr s = some s1 → Label.serveErr e ∈ tr →
      s1.failure = some e := by
  induction tr with
  | nil => intro s s1 _ hm; cases hm
  | cons l ls ih =>
    intro s s1 hr hm
    simp only [run] at hr
    cases hstep : step l s with
    | none => rw [hstep] at hr; cases hr
    | some s2 =>
      rw [hstep] at hr
      by_cases hl : l = .serveErr e
      · have h1 := (step_history l s s2 hstep).2.1 e hl
        have h2 := (step_history l s s2 hstep).2.2.2.2 e hl
        have h3 := run_failure_keep ls s2 s1 h2 hr
        rw [h3.1, h1]
      · have hm1 : Label.serveErr e ∈ ls := by
          rcases List.mem_cons.mp hm with h | h
          · exact absurd h.symm hl
          · exact h
        exact ih s2 s1 hr hm1

theorem started_facts (c : Core) (s0 : Life) (h : Started c s0) :
    Inv s0 s0 ∧ s0.Jobs = c.Jobs ++ [s0.job] ∧ s0.kills = 0 ∧
    s0.Events = c.Events := by
  cases h with
  | mtls bind c bindIface port ln hb =>
    refine ⟨inv_start _ _ _, ?_, rfl, ?_⟩
    · simp [lifeOf, jobStartMTLSListener, hb, GetJobID, AddJob]
    · simp [lifeOf, jobStartMTLSListener, hb, GetJobID, AddJob]
  | dns provision c domain =>
    refine ⟨inv_start _ _ _, ?_, rfl, ?_⟩
    · simp [lifeOf, jobStartDNSListener, GetJobID, AddJob]
    · simp [lifeOf, jobStartDNSListener, GetJobID, AddJob]
  | http c conf =>
    refine ⟨inv_start _ _ _, ?_, rfl, ?_⟩
    · simp [lifeOf, jobStartHTTPListener, GetJobID, AddJob]
    · simp [lifeOf, jobStartHTTPListener, GetJobID, AddJob]

theorem lookupJob_removed (js : List Job) (job : Job) :
    lookupJob (RemoveJob js job) job.ID = none := by
  simp [lookupJob, RemoveJob, List.find?_eq_none]

theorem stoppedCount_append (job : Job) (evs : List Event) (err : Option String) :
    stoppedCount job (evs ++ [stoppedEvent job err]) = stoppedCount job evs + 1 := by
  simp [stoppedCount, stoppedEvent, List.filter_append]

theorem rank_values (e : Option String) :
    PC.serving.rank = 7 ∧ PC.recv.rank = 6 ∧ (PC.once e).rank = 5 ∧
    (PC.release e).rank = 4 ∧ (PC.remove e).rank = 3 ∧ (PC.publish e).rank = 2 ∧
    PC.send.rank = 1 ∧ PC.finished.rank = 0 :=
  ⟨rfl, rfl, rfl, rfl, rfl, rfl, rfl, rfl⟩

theorem received_rank (s : Life) :
    s.received.waiter.rank < 6 ∧ s.received.serve = s.serve := by
  unfold Life.received
  cases s.kind <;> simp [PC.rank]

theorem stmt_rank (s r : Life) (pc after q : PC)
    (h : s.stmt pc after = some (r, q)) (ha : after.rank ≤ 1) :
    q.rank < pc.rank := by
  unfold Life.stmt at h
  cases pc with
  | once err =>
    have hr := rank_values err
    cases ho : s.once <;> rw [ho] at h <;> simp at h
    · obtain ⟨_, h2⟩ := h
      subst h2
      rw [hr.2.2.1, hr.2.2.2.1]
      omega
    · obtain ⟨_, h2⟩ := h
      subst h2
      rw [hr.2.2.1]
      omega
  | release err =>
    have hr := rank_values err
    simp at h
    obtain ⟨_, h2⟩ := h
    subst h2
    rw [hr.2.2.2.1, hr.2.2.2.2.1]
    omega
  | remove err =>
    have hr := rank_values err
    simp at h
    obtain ⟨_, h2⟩ := h
    subst h2
    rw [hr.2.2.2.2.1, hr.2.2.2.2.2.1]
    omega
  | publish err =>
    have hr := rank_values err
    simp at h
    obtain ⟨_, h2⟩ := h
    subst h2
    rw [hr.2.2.2.2.2.1]
    omega
  | recv => simp at h
  | serving => simp at h
  | send => simp at h
  | finished => simp at h

theorem step_measure (l : Label) (s s1 : Life) (h : step l s = some s1) :
    s1.measure + (if l.internal then 1 else 0) ≤ s.measure := by
  cases l with
  | kill =>
    simp only [step] at h
    split at h
    · cases h; simp [Life.measure, Label.internal]
    · cases h
  | serveErr e =>
    simp only [step] at h
    split at h
    · rename_i hv
      cases hk : s.kind <;> rw [hk] at h <;> cases h <;>
        simp [Life.measure, Label.internal, hv, PC.rank]
    · cases h
  | serveNil =>
    simp only [step] at h
    split at h
    · rename_i hv
      cases h; simp [Life.measure, Label.internal, hv, PC.rank]
    · cases h
  | rendezvousKill =>
    simp only [step] at h
    split at h
    · rename_i hc
      cases h
      have h1 := received_rank s
      have h2 := (rank_values none).2.1
      show s.received.waiter.rank + s.received.serve.rank + 1 ≤
        s.waiter.rank + s.serve.rank
      rw [h1.2, hc.1, h2]
      omega
    · cases h
  | rendezvousServe =>
    simp only [step] at h
    split at h
    · rename_i hc
      cases h
      have h1 := received_rank s
      have h2 := rank_values none
      show s.received.waiter.rank + PC.finished.rank + 1 ≤
        s.waiter.rank + s.serve.rank
      rw [hc.1, hc.2, h2.2.1, h2.2.2.2.2.2.2.1, h2.2.2.2.2.2.2.2]
      omega
    · cases h
  | waiterStep =>
    simp only [step, Option.map_eq_some'] at h
    obtain ⟨⟨r, q⟩, hr, hs1⟩ := h
    subst hs1
    have h1 := stmt_rank s r _ _ q hr (by simp [PC.rank])
    have h2 := stmt_fields s r _ _ q hr
    show q.rank + r.serve.rank + 1 ≤ s.waiter.rank + s.serve.rank
    rw [h2.2.2.1]
    omega
  | serveStep =>
    simp only [step, Option.map_eq_some'] at h
    obtain ⟨⟨r, q⟩, hr, hs1⟩ := h
    subst hs1
    have h1 := stmt_rank s r _ _ q hr (by simp [PC.rank])
    have h2 := stmt_fields s r _ _ q hr
    show r.waiter.rank + q.rank + 1 ≤ s.waiter.rank + s.serve.rank
    rw [h2.2.2.2.1]
    omega

theorem run_measure (tr : List Label) :
    ∀ (s s1 : Life), run tr s = some s1 →
      s1.measure + (tr.filter Label.internal).length ≤ s.measure := by
  induction tr with
  | nil =>
    intro s s1 hr
    simp [run] at hr
    simp [hr]
  | cons l ls ih =>
    intro s s1 hr
    simp only [run] at hr
    cases hstep : step l s with
    | none => rw [hstep] at hr; cases hr
    | some s2 =>
      rw [hstep] at hr
      have h1 := step_measure l s s2 hstep
      have h2 := ih s2 s1 hr
      cases hl : l.internal
      · rw [hl] at h1
        simp [List.filter_cons, hl]
        simp at h1
        omega
      · rw [hl] at h1
        simp [List.filter_cons, hl]
        simp at h1
        omega

/-- C4, the claim as stated fails for the mutual-TLS starter: when its serve
loop fails and no kill is issued, no goroutine of the job can take a step, the
teardown has not run at all, the job is still registered and no Stopped event
was published. -/
theorem mtls_serve_failure_no_teardown :
    ∃ s, run [.serveErr "accept failed"] mtlsStart = some s ∧
      quiescent s = true ∧ s.failure = some "accept failed" ∧
      s.Teardowns = [] ∧ s.Stops = 0 ∧ s.Removes = 0 ∧
      lookupJob s.Jobs 1 = some sampleJob ∧ s.Events = [] :=
  ⟨_, rfl, by decide, rfl, rfl, rfl, rfl, by decide, rfl⟩

/-- C4, amended: for every listener job handed over by one of the three
starters, the starter added the job to the registry once and no later step adds
it again; in every reachable state the teardown has been entered at most once,
with at most one driver stop, one `RemoveJob` and one Stopped event; the job's
goroutines take at most 13 steps in any run; and when none of them can take a
step any more, after a kill found the job or, for the DNS and HTTP/HTTPS
starters, after the serve loop failed (in any order, also both), the teardown
has run exactly once: one stop, one `RemoveJob`, one Stopped event, the job no
longer registered. (The mutual-TLS starter attaches no serve-failure trigger.) -/
theorem teardown_exactly_once (c : Core) (s0 s : Life) (tr : List Label)
    (hstart : Started c s0) (hrun : run tr s0 = some s) :
    (s0.Jobs = c.Jobs ++ [s0.job] ∧
      (s.Jobs = s0.Jobs ∨ s.Jobs = RemoveJob s0.Jobs s0.job)) ∧
    (s.Teardowns.length ≤ 1 ∧ s.Stops ≤ 1 ∧ s.Removes ≤ 1 ∧
      stoppedCount s0.job s.Events ≤ stoppedCount s0.job c.Events + 1) ∧
    (tr.filter Label.internal).length ≤ 13 ∧
    (quiescent s = true →
      (Label.kill ∈ tr ∨ (s0.kind ≠ .mtls ∧ ∃ e, Label.serveErr e ∈ tr)) →
      s.Teardowns.length = 1 ∧ s.Stops = 1 ∧ s.Removes = 1 ∧
      stoppedCount s0.job s.Events = stoppedCount s0.job c.Events + 1 ∧
      lookupJob s.Jobs s0.job.ID = none) := by
  obtain ⟨hinv0, hjobs, hkills0, hev0⟩ := started_facts c s0 hstart
  have hinv := inv_run s0 tr s0 s hinv0 hrun
  have hmeasure := run_measure tr s0 s hrun
  have hm0 : s0.measure = 13 := by
    cases hstart <;> rfl
  obtain ⟨hk, hj, ⟨n, hn, hT, hS, hR, hJ, hE⟩, hw, hv, hL1, hL2, hL3, hL4, hK1,
    hK2, hK3⟩ := hinv
  have hlen : s.Teardowns.length ≤ 1 := by rw [hT]; split <;> omega
  refine ⟨⟨hjobs, ?_⟩, ⟨hlen, ?_, ?_, ?_⟩, ?_, ?_⟩
  · rw [hJ]; split
    · exact Or.inr rfl
    · exact Or.inl rfl
  · rw [hS]; split <;> omega
  · rw [hR]; split <;> omega
  · rw [hE, hev0]
    split
    · match hTd : s.Teardowns, hlen with
      | [], _ => simp
      | [err], _ => simp [stoppedCount_append]
      | _ :: _ :: _, h => simp at h
    · simp
  · omega
  · intro hq htrig
    have ht : triggered s = true := by
      rcases htrig with hkill | ⟨hkind, e, he⟩
      · have h1 := run_kills tr s0 s hrun
        have h2 : 0 < tr.count Label.kill := List.count_pos_iff.mpr hkill
        simp [triggered]
        left; omega
      · have h1 := run_failure tr e s0 s hrun he
        simp [triggered, h1, hk, hkind]
    have h4 := stage_quiescent s0 s
      ⟨hk, hj, ⟨n, hn, hT, hS, hR, hJ, hE⟩, hw, hv, hL1, hL2, hL3, hL4, hK1, hK2, hK3⟩
      hq ht
    rw [hn] at h4
    cases h4
    simp at hT hS hR hJ hE
    refine ⟨hT, hS, hR, ?_, ?_⟩
    · rw [hE, hev0]
      match hTd : s.Teardowns, hT with
      | [err], _ => simp [stoppedCount_append]
    · rw [hJ]; exact lookupJob_removed _ _

/-- C4 amended, at a concrete input: the HTTPS job of a fresh server, whose
serve loop fails and which is killed as well; the waiter wins the race and the
teardown has run exactly once. -/
theorem teardown_exactly_once_witness :
    ∃ s, run killWinsRun httpStart = some s ∧ quiescent s = true ∧
      s.Teardowns.length = 1 ∧ s.Stops = 1 ∧ s.Removes = 1 ∧
      lookupJob s.Jobs httpStart.job.ID = none :=
  ⟨_, rfl, by decide,
    ((teardown_exactly_once emptyCore httpStart _ killWinsRun
      (Started.http emptyCore sampleConf) rfl).2.2.2 (by decide)
      (Or.inl (by decide))).1,
    ((teardown_exactly_once emptyCore httpStart _ killWinsRun
      (Started.http emptyCore sampleConf) rfl).2.2.2 (by decide)
      (Or.inl (by decide))).2.1,
    ((teardown_exactly_once emptyCore httpStart _ killWinsRun
      (Started.http emptyCore sampleConf) rfl).2.2.2 (by decide)
      (Or.inl (by decide))).2.2.1,
    ((teardown_exactly_once emptyCore httpStart _ killWinsRun
      (Started.http emptyCore sampleConf) rfl).2.2.2 (by decide)
      (Or.inl (by decide))).2.2.2.2⟩

/-- C10, the claim as stated fails. DNS: the serve loop fails with "bind:
permission denied", nobody kills, the job's goroutines run to completion; the
job is removed but the Stopped event carries no error. HTTPS: the serve loop
fails first, a kill arrives before the serve goroutine reaches `once.Do`, the
waiter runs the cleanup with a nil error and the Stopped event carries no error
either. -/
theorem stopped_event_without_serve_error :
    (∃ s, run dnsFailureRun dnsStart = some s ∧ quiescent s = true ∧
      s.failure = some "bind: permission denied" ∧ s.kills = 0 ∧
      lookupJob s.Jobs dnsStart.job.ID = none ∧
      s.Events = [stoppedEvent dnsStart.job none] ∧
      s.Events ≠ [stoppedEvent dnsStart.job (some "bind: permission denied")]) ∧
    (∃ s, run killWinsRun httpStart = some s ∧ quiescent s = true ∧
      s.failure = some "listener failed" ∧
      s.Events = [stoppedEvent httpsJob none] ∧
      s.Events ≠ [stoppedEvent httpsJob (some "listener failed")]) :=
  ⟨⟨_, rfl, by decide, rfl, rfl, by decide, rfl, by decide⟩,
   ⟨_, rfl, by decide, rfl, rfl, by decide⟩⟩

/-- C10, amended: for every DNS or HTTP/HTTPS listener job whose serve loop
terminates with an error `e` after the job was registered, in a run in which no
kill is issued, once the job's goroutines can take no further step the job has
been removed from the registry and the run has published exactly one event, a
Stopped event for the job; its error field is `e` for an HTTP/HTTPS job and is
unset for a DNS job, whose serve goroutine only raises the control signal. -/
theorem serve_failure_teardown (c : Core) (s0 s : Life) (tr : List Label)
    (e : String) (hstart : Started c s0) (hkind : s0.kind ≠ .mtls)
    (hrun : run tr s0 = some s) (hfail : Label.serveErr e ∈ tr)
    (hnokill : Label.kill ∉ tr) (hq : quiescent s = true) :
    lookupJob s.Jobs s0.job.ID = none ∧
    s.Events = c.Events ++
      [stoppedEvent s0.job (if s0.kind = .http then some e else none)] := by
  obtain ⟨hinv0, hjobs, hkills0, hev0⟩ := started_facts c s0 hstart
  have hinv := inv_run s0 tr s0 s hinv0 hrun
  have hf := run_failure tr e s0 s hrun hfail
  have hkills : s.kills = 0 := by
    have h1 := run_kills tr s0 s hrun
    have h2 : tr.count Label.kill = 0 := List.count_eq_zero.mpr hnokill
    omega
  have hk := hinv.1
  have ht : triggered s = true := by
    simp [triggered, hf, hk, hkind]
  have h4 := stage_quiescent s0 s hinv hq ht
  obtain ⟨_, hj, ⟨n, hn, hT, hS, hR, hJ, hE⟩, hw, hv, hL1, hL2, hL3, hL4, hK1,
    hK2, hK3⟩ := hinv
  rw [hn] at h4
  cases h4
  simp at hT hJ hE
  refine ⟨by rw [hJ]; exact lookupJob_removed _ _, ?_⟩
  match hTd : s.Teardowns, hT with
  | [err], _ =>
    have herr := hK2 hkills err (by simp [hTd])
    rw [hE, hev0, hTd]
    by_cases hh : s0.kind = .http
    · have hh1 : s.kind = .http := hk.trans hh
      rw [if_pos hh1, hf] at herr
      simp [hh, herr.1]
    · have hh1 : ¬ s.kind = .http := fun h => hh (hk.symm.trans h)
      rw [if_neg hh1] at herr
      simp [hh, herr]

/-- C10 amended, at a concrete input: the HTTPS job of a fresh server whose
serve loop fails with "listener failed" and which nobody kills. -/
theorem serve_failure_teardown_witness :
    ∃ s, run serveFailureRun httpStart = some s ∧ quiescent s = true ∧
      s.Events = [stoppedEvent httpStart.job (some "listener failed")] :=
  ⟨_, rfl, by decide,
    (serve_failure_teardown emptyCore httpStart _ serveFailureRun "listener failed"
      (Started.http emptyCore sampleConf) (by decide) rfl (by decide) (by decide)
      (by decide)).2⟩

end SliverServer
